import Mathlib

/-!
Shallow embedding of the realtime duplex audio streaming session of the
Void repository (the `LiveSession` component): the PCM sample codec, the
base64 transport text decoding, the playback scheduler, and the session
lifecycle callbacks, together with theorems settling the specification
claims about them.

Samples and clock times are modelled as rationals (the JS number
operations performed here are exact on the inputs considered, except for
the truncation that `Int16Array` element stores perform, which is
modelled explicitly).  Fallible steps return `Option`.
-/

namespace Void

/-! ## SampleCodec: `floatTo16BitPCM` (LiveSession lines 117–124) -/

/-- `Math.max(-1, Math.min(1, x))` — the clamping step of `floatTo16BitPCM`. -/
def clampSample (x : ℚ) : ℚ := max (-1) (min 1 x)

/-- JavaScript number-to-integer conversion (truncation toward zero), the
first step of the `ToInt16` conversion performed by an `Int16Array` store. -/
def jsTrunc (x : ℚ) : ℤ := if x < 0 then ⌈x⌉ else ⌊x⌋

/-- The wrap-around step of `ToInt16`: reduce modulo 2^16 into
`[-32768, 32767]`, as an `Int16Array` element store does. -/
def toInt16 (v : ℤ) : ℤ :=
  if v % 65536 < 32768 then v % 65536 else v % 65536 - 65536

/-- One loop iteration of `floatTo16BitPCM`:
`const s = Math.max(-1, Math.min(1, float32Arr[i]));
 int16Arr[i] = s < 0 ? s * 0x8000 : s * 0x7FFF;`. -/
def sampleToInt16 (x : ℚ) : ℤ :=
  let s := clampSample x
  toInt16 (jsTrunc (if s < 0 then s * 32768 else s * 32767))

/-- `floatTo16BitPCM` as a map from float samples to `Int16Array` contents. -/
def floatTo16BitPCM (xs : List ℚ) : List ℤ := xs.map sampleToInt16

/-- The unsigned 16-bit representation backing an `Int16Array` element. -/
def uint16OfInt16 (v : ℤ) : ℕ := (v % 65536).toNat

/-- The two little-endian bytes of one `Int16Array` element, as read by
`new Uint8Array(pcm16.buffer)` at the `onaudioprocess` call site. -/
def int16ToBytesLE (v : ℤ) : List ℕ :=
  [uint16OfInt16 v % 256, uint16OfInt16 v / 256]

/-- Little-endian byte serialization of a whole `Int16Array` buffer. -/
def int16ListToBytesLE : List ℤ → List ℕ
  | [] => []
  | v :: rest => int16ToBytesLE v ++ int16ListToBytesLE rest

/-- `encodePCM16` of the specification: `floatTo16BitPCM` followed by the
little-endian byte view of the resulting `Int16Array` buffer. -/
def encodePCM16 (xs : List ℚ) : List ℕ := int16ListToBytesLE (floatTo16BitPCM xs)

/-- Reinterpret two little-endian bytes as one signed 16-bit value, as
`new Int16Array(bytes.buffer)` does in `decodeAudio`. -/
def int16OfBytesLE (lo hi : ℕ) : ℤ :=
  if lo % 256 + 256 * (hi % 256) < 32768 then
    ((lo % 256 + 256 * (hi % 256) : ℕ) : ℤ)
  else ((lo % 256 + 256 * (hi % 256) : ℕ) : ℤ) - 65536

/-- Reinterpret a little-endian byte buffer as an `Int16Array`. -/
def bytesToInt16LE : List ℕ → List ℤ
  | lo :: hi :: rest => int16OfBytesLE lo hi :: bytesToInt16LE rest
  | _ => []

/-- The PCM-to-float step of `decodeAudio` (LiveSession lines 136–138):
`new Int16Array(bytes.buffer)` throws a `RangeError` when the byte length
is not a multiple of 2 (modelled as `none`), and otherwise each signed
16-bit value is divided by 32768.0. -/
def decodePCM16 (b : List ℕ) : Option (List ℚ) :=
  if b.length % 2 = 0 then
    some (List.map (fun v : ℤ => (v : ℚ) / 32768) (bytesToInt16LE b))
  else none

/-! ## Transport text decoding: `atob` (LiveSession lines 128–130) -/

/-- The base64 alphabet, in value order. -/
def base64Alphabet : List Char :=
  "ABCDEFGHIJKLMNOPQRSTUVWXYZabcdefghijklmnopqrstuvwxyz0123456789+/".data

/-- The 6-bit value of one base64 character, `none` when the character is
not in the alphabet. -/
def b64Val (c : Char) : Option ℕ := base64Alphabet.findIdx? fun d => d = c

/-- ASCII whitespace, removed by the forgiving-base64 decode behind `atob`. -/
def isB64Space (c : Char) : Bool :=
  c = ' ' || c = Char.ofNat 9 || c = Char.ofNat 10 || c = Char.ofNat 12 ||
    c = Char.ofNat 13

/-- Remove up to two trailing `=` padding characters when the length is a
multiple of four, as the forgiving-base64 decode does. -/
def stripB64Padding (cs : List Char) : List Char :=
  if cs.length % 4 = 0 then
    match cs.reverse with
    | '=' :: '=' :: rest => rest.reverse
    | '=' :: rest => rest.reverse
    | _ => cs
  else cs

/-- Pack a list of 6-bit values into bytes, three bytes per group of four
values, with a final group of two or three values contributing one or two
bytes. -/
def b64GroupsToBytes : List ℕ → List ℕ
  | a :: b :: c :: d :: rest =>
      (a * 4 + b / 16) :: ((b % 16) * 16 + c / 4) :: ((c % 4) * 64 + d) ::
        b64GroupsToBytes rest
  | [a, b] => [a * 4 + b / 16]
  | [a, b, c] => [a * 4 + b / 16, (b % 16) * 16 + c / 4]
  | _ => []

/-- `atob`: the forgiving-base64 decode from transport text to bytes,
failing (`none`) on a length of 1 mod 4 after whitespace and padding
removal, or on any character outside the alphabet. -/
def atobDecode (s : String) : Option (List ℕ) :=
  let cs := stripB64Padding (s.data.filter fun c => !(isB64Space c))
  if cs.length % 4 = 1 then none
  else (cs.mapM b64Val).map b64GroupsToBytes

/-- `decodeAudio` up to the float sample buffer: base64 text decoding
followed by the PCM-to-float step.  Either failure aborts the message
callback before any state is touched. -/
def decodeAudioSamples (b64 : String) : Option (List ℚ) :=
  (atobDecode b64).bind decodePCM16

/-! ## PlaybackScheduler: `playAudio` (LiveSession lines 145–158) -/

/-- One scheduled playback: a started `AudioBufferSourceNode` together with
its assigned start time, its buffer duration, and whether `stop` has been
invoked on it. -/
structure Playback where
  id : ℕ
  start : ℚ
  duration : ℚ
  stopped : Bool
deriving DecidableEq

/-- The end time of a scheduled playback. -/
def Playback.endTime (p : Playback) : ℚ := p.start + p.duration

/-- The scheduler state: `nextStartTimeRef` (the NextStartCursor),
a counter producing fresh source identities, the `sourcesRef` set of
still-registered sources (by identity), and the log of every playback
scheduled so far. -/
structure SchedState where
  cursor : ℚ
  nextId : ℕ
  active : List ℕ
  playbacks : List Playback
deriving DecidableEq

/-- `buffer.duration` of the `AudioBuffer` built by `decodeAudio`:
sample count divided by the fixed 24 kHz output rate. -/
def chunkDuration (samples : List ℚ) : ℚ := (samples.length : ℚ) / 24000

/-- `playAudio`, returning the playback it creates:
`const start = Math.max(now, nextStartTimeRef.current); source.start(start);
 nextStartTimeRef.current = start + buffer.duration; sourcesRef.current.add(source);`. -/
def schedulePlayback (now : ℚ) (samples : List ℚ) (s : SchedState) :
    Playback × SchedState :=
  let start := max now s.cursor
  let p : Playback := ⟨s.nextId, start, chunkDuration samples, false⟩
  (p, { cursor := start + chunkDuration samples,
        nextId := s.nextId + 1,
        active := s.active ++ [s.nextId],
        playbacks := s.playbacks ++ [p] })

/-- `playAudio` as a state transition. -/
def playAudio (now : ℚ) (samples : List ℚ) (s : SchedState) : SchedState :=
  (schedulePlayback now samples s).2

/-- The scheduler state at component initialization:
`nextStartTimeRef = useRef<number>(0)`, `sourcesRef = useRef(new Set())`. -/
def initialSched : SchedState :=
  { cursor := 0, nextId := 0, active := [], playbacks := [] }

/-! ## SessionController: the LiveSession lifecycle (lines 10–114) -/

/-- The `status` state: `'connecting' | 'connected' | 'error' | 'closed'`. -/
inductive Status where
  | connecting
  | connected
  | error
  | closed
deriving DecidableEq

/-- The cross-callback mutable state of one `LiveSession` instance: the
displayed status, the `mounted` flag of the effect, whether the input and
output `AudioContext`s are open, whether the transport session is open,
the log of frames sent to the transport, and the scheduler state. -/
structure Session where
  status : Status
  mounted : Bool
  inputOpen : Bool
  outputOpen : Bool
  transportOpen : Bool
  sent : List (List ℕ)
  sched : SchedState
deriving DecidableEq

/-- The session right after `init` has acquired its resources and opened
the transport. -/
def initSession : Session :=
  { status := .connecting, mounted := true, inputOpen := true,
    outputOpen := true, transportOpen := true, sent := [],
    sched := initialSched }

/-- The `onopen` transport callback: `if(mounted) setStatus('connected')`. -/
def onopen (s : Session) : Session :=
  if s.mounted then { s with status := .connected } else s

/-- The `onclose` transport callback: `if(mounted) setStatus('closed')`. -/
def onclose (s : Session) : Session :=
  if s.mounted then { s with status := .closed } else s

/-- The `onerror` transport callback: `if(mounted) setStatus('error')`. -/
def onerror (s : Session) : Session :=
  if s.mounted then { s with status := .error } else s

/-- The `processor.onaudioprocess` capture callback (lines 54–67): encode
the capture block and send it through the transport.  The callback body
contains no `mounted` check. -/
def onaudioprocess (samples : List ℚ) (s : Session) : Session :=
  { s with sent := s.sent ++ [encodePCM16 samples] }

/-- The `onmessage` transport callback (lines 72–86): return immediately
when unmounted; otherwise decode the inline audio data, if any, and hand
the buffer to `playAudio`.  A decode failure aborts the callback before
any state is touched. -/
def onmessage (data : Option String) (now : ℚ) (s : Session) : Session :=
  if s.mounted then
    match data with
    | some b64 =>
      match decodeAudioSamples b64 with
      | some samples => { s with sched := playAudio now samples s.sched }
      | none => s
    | none => s
  else s

/-- `s.stop()` on one source of the registered set: mark it stopped when
it is registered, leave it alone otherwise. -/
def stopSource (active : List ℕ) (p : Playback) : Playback :=
  if p.id ∈ active then { p with stopped := true } else p

/-- `sourcesRef.current.forEach(s => s.stop())`: mark every source still in
the registered set as stopped.  The set itself is not cleared. -/
def stopActive (sc : SchedState) : SchedState :=
  { sc with playbacks := sc.playbacks.map (stopSource sc.active) }

/-- The effect cleanup (lines 107–113): clear `mounted`, close both audio
contexts, and stop every registered source.  Nothing else is touched. -/
def cleanup (s : Session) : Session :=
  { s with mounted := false, inputOpen := false, outputOpen := false,
           sched := stopActive s.sched }

/-- `source.onended = () => sourcesRef.current.delete(source)`. -/
def onendedSource (id : ℕ) (s : Session) : Session :=
  { s with sched := { s.sched with active := s.sched.active.erase id } }

/-- One externally driven event of a session's lifetime. -/
inductive Ev where
  | opened
  | message (data : Option String) (now : ℚ)
  | closeEv
  | errorEv
  | audio (samples : List ℚ)
  | ended (id : ℕ)
  | unmount

/-- Apply one event to the session state. -/
def step : Ev → Session → Session
  | .opened, s => onopen s
  | .message d t, s => onmessage d t s
  | .closeEv, s => onclose s
  | .errorEv, s => onerror s
  | .audio xs, s => onaudioprocess xs s
  | .ended i, s => onendedSource i s
  | .unmount, s => cleanup s

/-- Apply a sequence of events in order. -/
def runEvents (evs : List Ev) (s : Session) : Session :=
  evs.foldl (fun s e => step e s) s

/-! ## System instruction (LiveSession lines 40–45 and 90–96) -/

/-- The fallback text substituted for an absent or empty context. -/
def defaultContextText : String :=
  "The user is drifting in the void with no specific active note."

/-- The instruction template text before the interpolated context. -/
def instructionPre : String :=
  "You are VOID, the digital abyss that stares back. The user is screaming into you. Be calm, infinite, and slightly cryptic but helpful.\n                \n                CONTEXT OF CURRENT SESSION:\n                "

/-- The instruction template text after the interpolated context. -/
def instructionPost : String :=
  "\n                \n                Use this context to answer questions or generate ideas if asked."

/-- The JavaScript truthiness choice `context || default` applied to the
optional `context` prop: `undefined` and the empty string are falsy. -/
def contextOrDefault (ctx : Option String) : String :=
  match ctx with
  | none => defaultContextText
  | some c => if c = "" then defaultContextText else c

/-- The `instruction` template literal sent as `systemInstruction` in the
`ai.live.connect` configuration. -/
def buildInstruction (ctx : Option String) : String :=
  instructionPre ++ contextOrDefault ctx ++ instructionPost

/-! ## Helper lemmas about the codec -/

/-- The wrap step is the identity on values already in the signed 16-bit
range. -/
theorem toInt16_eq_self {v : ℤ} (h1 : -32768 ≤ v) (h2 : v ≤ 32767) :
    toInt16 v = v := by
  unfold toInt16
  split <;> omega

/-- The wrap step always lands in the signed 16-bit range. -/
theorem toInt16_range (v : ℤ) : -32768 ≤ toInt16 v ∧ toInt16 v ≤ 32767 := by
  unfold toInt16
  split <;> omega

/-- Clamping is the identity on samples already in `[-1, 1]`. -/
theorem clampSample_of_mem {x : ℚ} (h1 : -1 ≤ x) (h2 : x ≤ 1) :
    clampSample x = x := by
  unfold clampSample
  rw [min_eq_right h2, max_eq_right h1]

/-- The clamped sample always lies in `[-1, 1]`. -/
theorem clampSample_mem (x : ℚ) : -1 ≤ clampSample x ∧ clampSample x ≤ 1 := by
  unfold clampSample
  constructor
  · exact le_max_left _ _
  · rcases le_total 1 x with h | h
    · rw [min_eq_left h]
      simp
    · rw [min_eq_right h]
      exact max_le (by linarith) h

/-- The scaled truncation of a clamped sample lies in the signed 16-bit
range, so the wrap step of the `Int16Array` store never fires. -/
theorem jsTruncScale_range {s : ℚ} (h1 : -1 ≤ s) (h2 : s ≤ 1) :
    -32768 ≤ jsTrunc (if s < 0 then s * 32768 else s * 32767) ∧
      jsTrunc (if s < 0 then s * 32768 else s * 32767) ≤ 32767 := by
  by_cases hs : s < 0
  · rw [if_pos hs]
    have hneg : s * 32768 < 0 := mul_neg_of_neg_of_pos hs (by norm_num)
    rw [jsTrunc, if_pos hneg]
    constructor
    · have hle : (-32768 : ℚ) ≤ s * 32768 := by nlinarith
      have := Int.ceil_le_ceil (α := ℚ) hle
      rwa [show ((-32768 : ℚ)) = ((-32768 : ℤ) : ℚ) by norm_num,
        Int.ceil_intCast] at this
    · have : ⌈s * 32768⌉ ≤ (0 : ℤ) := Int.ceil_le.mpr (by push_cast; linarith)
      omega
  · rw [if_neg hs]
    push_neg at hs
    have hnn : 0 ≤ s * 32767 := mul_nonneg hs (by norm_num)
    rw [jsTrunc, if_neg (by push_neg; exact hnn)]
    constructor
    · have : (0 : ℤ) ≤ ⌊s * 32767⌋ := Int.le_floor.mpr (by push_cast; linarith)
      omega
    · have hle : s * 32767 ≤ ((32767 : ℤ) : ℚ) := by push_cast; nlinarith
      have := Int.floor_le_floor (α := ℚ) hle
      rwa [Int.floor_intCast] at this

/-- `floatTo16BitPCM` never wraps: the stored value is exactly the scaled
truncation of the clamped sample. -/
theorem sampleToInt16_unwrapped (x : ℚ) :
    sampleToInt16 x =
      jsTrunc (if clampSample x < 0 then clampSample x * 32768
               else clampSample x * 32767) := by
  have hm := clampSample_mem x
  have hr := jsTruncScale_range hm.1 hm.2
  unfold sampleToInt16
  exact toInt16_eq_self hr.1 hr.2

/-- The stored sample value lies in the signed 16-bit range. -/
theorem sampleToInt16_range (x : ℚ) :
    -32768 ≤ sampleToInt16 x ∧ sampleToInt16 x ≤ 32767 := by
  unfold sampleToInt16
  exact toInt16_range _

/-- Reading back the two little-endian bytes of an `Int16Array` element
recovers exactly the wrapped value. -/
theorem int16OfBytesLE_encode (v : ℤ) :
    int16OfBytesLE (uint16OfInt16 v % 256) (uint16OfInt16 v / 256) =
      toInt16 v := by
  unfold int16OfBytesLE uint16OfInt16 toInt16
  have h0 : 0 ≤ v % 65536 := Int.emod_nonneg v (by norm_num)
  have h1 : v % 65536 < 65536 := Int.emod_lt_of_pos v (by norm_num)
  have hu : ((v % 65536).toNat : ℤ) = v % 65536 := Int.toNat_of_nonneg h0
  set u : ℕ := (v % 65536).toNat with hudef
  have hub : u < 65536 := by omega
  have hlo : u % 256 % 256 = u % 256 :=
    Nat.mod_eq_of_lt (Nat.mod_lt _ (by norm_num))
  have hhi : u / 256 % 256 = u / 256 := Nat.mod_eq_of_lt (by omega)
  rw [hlo, hhi, Nat.mod_add_div u 256]
  split <;> split <;> omega

/-- Byte length of the serialized `Int16Array` buffer. -/
theorem int16ListToBytesLE_length (vs : List ℤ) :
    (int16ListToBytesLE vs).length = 2 * vs.length := by
  induction vs with
  | nil => rfl
  | cons v rest ih =>
    simp only [int16ListToBytesLE, int16ToBytesLE, List.length_append,
      List.length_cons, List.length_nil, ih]
    omega

/-- Reinterpreting the serialized buffer as an `Int16Array` recovers the
wrapped values. -/
theorem bytesToInt16LE_encode (vs : List ℤ) :
    bytesToInt16LE (int16ListToBytesLE vs) = vs.map toInt16 := by
  induction vs with
  | nil => rfl
  | cons v rest ih =>
    simp [int16ListToBytesLE, int16ToBytesLE, bytesToInt16LE, ih,
      int16OfBytesLE_encode]

/-- Pointwise round-trip error of the asymmetric 32767/32768 scaling: for
an in-range sample the decoded value is within two quantization steps of
the original (one step is not enough near `+1`, see the counterexample
for the round-trip claim). -/
theorem sample_roundtrip_error {x : ℚ} (h1 : -1 ≤ x) (h2 : x ≤ 1) :
    |((sampleToInt16 x : ℤ) : ℚ) / 32768 - x| < 2 / 32768 := by
  rw [sampleToInt16_unwrapped, clampSample_of_mem h1 h2]
  by_cases hx : x < 0
  · rw [if_pos hx]
    have hneg : x * 32768 < 0 := mul_neg_of_neg_of_pos hx (by norm_num)
    rw [jsTrunc, if_pos hneg]
    have hle : x * 32768 ≤ (⌈x * 32768⌉ : ℚ) := Int.le_ceil _
    have hlt : ((⌈x * 32768⌉ : ℤ) : ℚ) < x * 32768 + 1 := Int.ceil_lt_add_one _
    rw [abs_sub_lt_iff]
    constructor <;> linarith
  · push_neg at hx
    rw [if_neg (not_lt.mpr hx)]
    have hnn : 0 ≤ x * 32767 := mul_nonneg hx (by norm_num)
    rw [jsTrunc, if_neg (not_lt.mpr hnn)]
    have hle : ((⌊x * 32767⌋ : ℤ) : ℚ) ≤ x * 32767 := Int.floor_le _
    have hlt : x * 32767 - 1 < ((⌊x * 32767⌋ : ℤ) : ℚ) := Int.sub_one_lt_floor _
    rw [abs_sub_lt_iff]
    constructor <;> nlinarith

/-- Length of the reinterpreted `Int16Array`: one element per byte pair,
a trailing odd byte contributing nothing. -/
theorem bytesToInt16LE_length (b : List ℕ) :
    (bytesToInt16LE b).length = b.length / 2 := by
  match b with
  | [] => rfl
  | [x] => simp [bytesToInt16LE]
  | lo :: hi :: rest =>
    simp only [bytesToInt16LE, List.length_cons, bytesToInt16LE_length rest]
    omega

/-- Each element of the reinterpreted `Int16Array` is the signed value of
the corresponding little-endian byte pair. -/
theorem bytesToInt16LE_getElem (b : List ℕ) (i lo hi : ℕ)
    (hlo : b[2 * i]? = some lo) (hhi : b[2 * i + 1]? = some hi) :
    (bytesToInt16LE b)[i]? = some (int16OfBytesLE lo hi) := by
  match b, i with
  | [], _ => simp at hlo
  | [x], i =>
    rw [List.getElem?_eq_some_iff] at hhi
    obtain ⟨h, _⟩ := hhi
    simp at h
  | a :: c :: rest, 0 =>
    rw [show 2 * 0 = 0 from rfl, List.getElem?_cons_zero,
      Option.some_inj] at hlo
    rw [show 2 * 0 + 1 = 1 from rfl, List.getElem?_cons_succ,
      List.getElem?_cons_zero, Option.some_inj] at hhi
    subst hlo
    subst hhi
    simp [bytesToInt16LE]
  | a :: c :: rest, i + 1 =>
    have h1 : (a :: c :: rest)[2 * (i + 1)]? = rest[2 * i]? := by
      rw [show 2 * (i + 1) = 2 * i + 1 + 1 by omega]
      simp
    have h2 : (a :: c :: rest)[2 * (i + 1) + 1]? = rest[2 * i + 1]? := by
      rw [show 2 * (i + 1) + 1 = 2 * i + 1 + 1 + 1 by omega]
      simp
    rw [h1] at hlo
    rw [h2] at hhi
    simpa [bytesToInt16LE] using bytesToInt16LE_getElem rest i lo hi hlo hhi

/-! ## Helper lemmas about the scheduler and session -/

/-- The start time assigned by `playAudio`. -/
theorem schedulePlayback_start (now : ℚ) (buf : List ℚ) (s : SchedState) :
    (schedulePlayback now buf s).1.start = max now s.cursor := rfl

/-- The cursor value after `playAudio`. -/
theorem schedulePlayback_cursor (now : ℚ) (buf : List ℚ) (s : SchedState) :
    (schedulePlayback now buf s).2.cursor =
      max now s.cursor + chunkDuration buf := rfl

/-- Buffer durations are never negative. -/
theorem chunkDuration_nonneg (buf : List ℚ) : 0 ≤ chunkDuration buf := by
  unfold chunkDuration
  positivity

/-- Stopping an already-stopped source changes nothing. -/
theorem stopSource_idem (active : List ℕ) (p : Playback) :
    stopSource active (stopSource active p) = stopSource active p := by
  unfold stopSource
  by_cases h : p.id ∈ active <;> simp [h]

/-- Stopping the registered sources twice is the same as stopping them
once. -/
theorem stopActive_idem (sc : SchedState) :
    stopActive (stopActive sc) = stopActive sc := by
  unfold stopActive
  simp only [List.map_map]
  have h2 : List.map (stopSource sc.active ∘ stopSource sc.active)
      sc.playbacks = List.map (stopSource sc.active) sc.playbacks :=
    List.map_congr_left fun p _ => stopSource_idem sc.active p
  rw [h2]

/-- The effect cleanup is idempotent. -/
theorem cleanup_idem (s : Session) : cleanup (cleanup s) = cleanup s := by
  unfold cleanup
  simp [stopActive_idem]

/-- Once `mounted` is cleared, no event changes the status, and none sets
`mounted` again. -/
theorem step_of_unmounted (e : Ev) (s : Session) (h : s.mounted = false) :
    (step e s).status = s.status ∧ (step e s).mounted = false := by
  cases e <;>
    simp [step, onopen, onclose, onerror, onmessage, onaudioprocess,
      onendedSource, cleanup, h]

/-- Once `mounted` is cleared, no event sequence changes the status. -/
theorem runEvents_of_unmounted (evs : List Ev) (s : Session)
    (h : s.mounted = false) :
    (runEvents evs s).status = s.status ∧
      (runEvents evs s).mounted = false := by
  induction evs generalizing s with
  | nil => exact ⟨rfl, h⟩
  | cons e rest ih =>
    have hs := step_of_unmounted e s h
    have hr := ih (step e s) hs.2
    exact ⟨hr.1.trans hs.1, hr.2⟩

/-! ## Claim C1: playback scheduling invariant -/

/-- C1: every playback B scheduled directly after a playback A starts at
`max(currentClockTime, A.end)`, hence never before `A.end`; three chunks
delivered back-to-back at time `t0` (with the cursor at or behind `t0`)
start at `t0`, `t0 + d1`, `t0 + d1 + d2`; a chunk arriving with the clock
at or past the cursor starts at the current clock time, is still
scheduled (never dropped), and never starts in the past. -/
theorem scheduler_gapless_C1 :
    (∀ (s : SchedState) (nowA nowB : ℚ) (bufA bufB : List ℚ),
        (schedulePlayback nowB bufB (schedulePlayback nowA bufA s).2).1.start
          = max nowB (Playback.endTime (schedulePlayback nowA bufA s).1) ∧
        Playback.endTime (schedulePlayback nowA bufA s).1
          ≤ (schedulePlayback nowB bufB
              (schedulePlayback nowA bufA s).2).1.start) ∧
    (∀ (s : SchedState) (now : ℚ) (buf : List ℚ),
        now ≤ (schedulePlayback now buf s).1.start ∧
        (schedulePlayback now buf s).2.playbacks
          = s.playbacks ++ [(schedulePlayback now buf s).1]) ∧
    (∀ (s : SchedState) (t0 : ℚ) (b1 b2 b3 : List ℚ), s.cursor ≤ t0 →
        (schedulePlayback t0 b1 s).1.start = t0 ∧
        (schedulePlayback t0 b2 (schedulePlayback t0 b1 s).2).1.start
          = t0 + chunkDuration b1 ∧
        (schedulePlayback t0 b3 (schedulePlayback t0 b2
            (schedulePlayback t0 b1 s).2).2).1.start
          = t0 + chunkDuration b1 + chunkDuration b2) ∧
    (∀ (s : SchedState) (now : ℚ) (buf : List ℚ), s.cursor ≤ now →
        (schedulePlayback now buf s).1.start = now) := by
  refine ⟨fun s nowA nowB bufA bufB => ⟨rfl, ?_⟩,
    fun s now buf => ⟨le_max_left _ _, rfl⟩, ?_, fun s now buf h => ?_⟩
  · rw [schedulePlayback_start]
    exact le_max_right _ _
  · intro s t0 b1 b2 b3 h
    have d1 := chunkDuration_nonneg b1
    have d2 := chunkDuration_nonneg b2
    have e1 : (schedulePlayback t0 b1 s).1.start = t0 := by
      rw [schedulePlayback_start, max_eq_left h]
    have c1 : (schedulePlayback t0 b1 s).2.cursor = t0 + chunkDuration b1 := by
      rw [schedulePlayback_cursor, max_eq_left h]
    have e2 : (schedulePlayback t0 b2 (schedulePlayback t0 b1 s).2).1.start
        = t0 + chunkDuration b1 := by
      rw [schedulePlayback_start, c1, max_eq_right (by linarith)]
    have c2 : (schedulePlayback t0 b2 (schedulePlayback t0 b1 s).2).2.cursor
        = t0 + chunkDuration b1 + chunkDuration b2 := by
      rw [schedulePlayback_cursor, c1, max_eq_right (by linarith)]
    have e3 : (schedulePlayback t0 b3 (schedulePlayback t0 b2
        (schedulePlayback t0 b1 s).2).2).1.start
        = t0 + chunkDuration b1 + chunkDuration b2 := by
      rw [schedulePlayback_start, c2, max_eq_right (by linarith)]
    exact ⟨e1, e2, e3⟩
  · rw [schedulePlayback_start, max_eq_left h]

/-- Witness for C1 at a concrete late arrival: the initial cursor is 0,
the clock is at 1, and the chunk is scheduled to start at 1. -/
theorem scheduler_gapless_C1_witness :
    initialSched.cursor ≤ 1 ∧
      (schedulePlayback 1 [] initialSched).1.start = 1 :=
  ⟨by norm_num [initialSched],
    scheduler_gapless_C1.2.2.2 initialSched 1 [] (by norm_num [initialSched])⟩

/-! ## Claim C5: encodePCM16 -/

/-- C5: `encodePCM16` emits exactly two little-endian bytes per sample,
maps the empty buffer to the empty byte sequence, and each stored value
is the clamped sample scaled by 32768 (negative) or 32767 (non-negative)
truncated to an integer, which always lies in the signed 16-bit range
(so the wrap step of the `Int16Array` store never fires). -/
theorem encodePCM16_C5 (xs : List ℚ) :
    (encodePCM16 xs).length = 2 * xs.length ∧
    encodePCM16 ([] : List ℚ) = [] ∧
    encodePCM16 xs = int16ListToBytesLE (xs.map fun x =>
      jsTrunc (if clampSample x < 0 then clampSample x * 32768
               else clampSample x * 32767)) ∧
    ∀ x ∈ xs, -32768 ≤ sampleToInt16 x ∧ sampleToInt16 x ≤ 32767 := by
  refine ⟨?_, rfl, ?_, fun x _ => sampleToInt16_range x⟩
  · unfold encodePCM16 floatTo16BitPCM
    rw [int16ListToBytesLE_length, List.length_map]
  · unfold encodePCM16 floatTo16BitPCM
    have h : sampleToInt16 = fun x =>
        jsTrunc (if clampSample x < 0 then clampSample x * 32768
                 else clampSample x * 32767) :=
      funext sampleToInt16_unwrapped
    rw [h]

/-- Witness for C5 at the concrete sample 1/2. -/
theorem encodePCM16_C5_witness :
    ((1 : ℚ) / 2) ∈ [(1 : ℚ) / 2] ∧
    (-32768 ≤ sampleToInt16 ((1 : ℚ) / 2) ∧
      sampleToInt16 ((1 : ℚ) / 2) ≤ 32767) :=
  ⟨List.mem_singleton.mpr rfl,
    (encodePCM16_C5 [(1 : ℚ) / 2]).2.2.2 _ (List.mem_singleton.mpr rfl)⟩

/-! ## Claim C6: decodePCM16 -/

/-- C6: the PCM-to-float step of `decodeAudio` fails exactly when the
byte length is odd, and otherwise yields one float per little-endian
16-bit pair, the signed value divided by 32768. -/
theorem decodePCM16_C6 (b : List ℕ) :
    (decodePCM16 b = none ↔ b.length % 2 ≠ 0) ∧
    ∀ out, decodePCM16 b = some out →
      out.length = b.length / 2 ∧
      ∀ i lo hi : ℕ, b[2 * i]? = some lo → b[2 * i + 1]? = some hi →
        out[i]? = some ((int16OfBytesLE lo hi : ℚ) / 32768) := by
  constructor
  · unfold decodePCM16
    split <;> simp [*]
  · intro out hout
    unfold decodePCM16 at hout
    split at hout
    · rw [Option.some_inj] at hout
      subst hout
      refine ⟨?_, ?_⟩
      · rw [List.length_map, bytesToInt16LE_length]
      · intro i lo hi hlo hhi
        rw [List.getElem?_map, bytesToInt16LE_getElem b i lo hi hlo hhi]
        rfl
    · exact absurd hout (by simp)

/-- Witness for C6 at the concrete byte pair `[0, 128]`, which decodes to
the single sample -1. -/
theorem decodePCM16_C6_witness :
    decodePCM16 [0, 128] = some [(-1 : ℚ)] ∧
      [(-1 : ℚ)].length = [0, 128].length / 2 := by
  have h : decodePCM16 [0, 128] = some [(-1 : ℚ)] := by
    norm_num [decodePCM16, bytesToInt16LE, int16OfBytesLE]
  exact ⟨h, ((decodePCM16_C6 [0, 128]).2 [(-1 : ℚ)] h).1⟩

/-! ## Claim C7: decode-failure isolation -/

/-- C7: a message whose audio payload fails to decode (whether the
transport text encoding or the PCM byte length is invalid) leaves the
session completely unchanged — cursor untouched, nothing scheduled,
status unchanged — and later messages are processed exactly as if the
bad chunk had never arrived. -/
theorem decode_failure_isolation_C7 (s : Session) (b64 : String) (now : ℚ)
    (hfail : decodeAudioSamples b64 = none) :
    onmessage (some b64) now s = s ∧
    ∀ d2 t2, onmessage d2 t2 (onmessage (some b64) now s)
      = onmessage d2 t2 s := by
  have h : onmessage (some b64) now s = s := by
    by_cases hm : s.mounted <;> simp [onmessage, hm, hfail]
  exact ⟨h, fun d2 t2 => by rw [h]⟩

/-- Witness for C7 at the concrete invalid transport text `"!"`. -/
theorem decode_failure_isolation_C7_witness :
    decodeAudioSamples "!" = none ∧
      onmessage (some "!") 0 initSession = initSession :=
  ⟨by decide, (decode_failure_isolation_C7 initSession "!" 0 (by decide)).1⟩

/-! ## Claim C2: PCM round-trip accuracy -/

/-- C2 fails as stated: at the in-range sample 65533/65534 the round
trip returns 16383/16384, which is off by 49150/(32767·32768), more than
one quantization step 1/32768.  The asymmetric scaling (multiply by
32767, divide by 32768) loses up to two steps near `+1`. -/
theorem pcm_roundtrip_C2_counterexample :
    decodePCM16 (encodePCM16 [(65533 : ℚ) / 65534])
      = some [(16383 : ℚ) / 16384] ∧
    ¬ |(16383 : ℚ) / 16384 - 65533 / 65534| ≤ 1 / 32768 := by
  constructor
  · have hclamp : clampSample ((65533 : ℚ) / 65534) = 65533 / 65534 :=
      clampSample_of_mem (by norm_num) (by norm_num)
    have hval : sampleToInt16 ((65533 : ℚ) / 65534) = 32766 := by
      rw [sampleToInt16_unwrapped, hclamp, if_neg (by norm_num), jsTrunc,
        if_neg (by norm_num), Int.floor_eq_iff]
      norm_num
    have hb : int16ToBytesLE (32766 : ℤ) = [254, 127] := by decide
    have henc : encodePCM16 [(65533 : ℚ) / 65534] = [254, 127] := by
      unfold encodePCM16 floatTo16BitPCM
      simp only [List.map_cons, List.map_nil, hval, int16ListToBytesLE, hb,
        List.append_nil]
    rw [henc]
    norm_num [decodePCM16, bytesToInt16LE, int16OfBytesLE]
  · rw [abs_of_neg (by norm_num)]
    norm_num

/-- C2 amended: for a sample buffer with values in `[-1, 1]`, decoding
the encoding succeeds, preserves the length, and reproduces every sample
to within two quantization steps, `2/32768` (strictly); one step is not
enough, see the counterexample. -/
theorem pcm_roundtrip_C2_amended (xs : List ℚ)
    (h : ∀ x ∈ xs, -1 ≤ x ∧ x ≤ 1) :
    ∃ ys, decodePCM16 (encodePCM16 xs) = some ys ∧
      ys.length = xs.length ∧
      ∀ (i : ℕ) (hi : i < ys.length) (hj : i < xs.length),
        |ys.get ⟨i, hi⟩ - xs.get ⟨i, hj⟩| < 2 / 32768 := by
  refine ⟨xs.map (fun x => ((sampleToInt16 x : ℤ) : ℚ) / 32768), ?_, ?_, ?_⟩
  · unfold decodePCM16 encodePCM16 floatTo16BitPCM
    rw [if_pos (by rw [int16ListToBytesLE_length, List.length_map]; omega)]
    rw [bytesToInt16LE_encode]
    have hmap : List.map (fun v : ℤ => (v : ℚ) / 32768)
        (List.map toInt16 (List.map sampleToInt16 xs))
        = List.map (fun x => ((sampleToInt16 x : ℤ) : ℚ) / 32768) xs := by
      rw [List.map_map, List.map_map]
      refine List.map_congr_left fun x _ => ?_
      simp only [Function.comp]
      rw [toInt16_eq_self (sampleToInt16_range x).1 (sampleToInt16_range x).2]
    rw [hmap]
  · rw [List.length_map]
  · intro i hi hj
    have hget : (xs.map (fun x => ((sampleToInt16 x : ℤ) : ℚ) / 32768)).get
        ⟨i, hi⟩ = ((sampleToInt16 (xs.get ⟨i, hj⟩) : ℤ) : ℚ) / 32768 := by
      simp [List.get_eq_getElem, List.getElem_map]
    rw [hget]
    have hmem := List.get_mem xs i hj
    exact sample_roundtrip_error (h _ hmem).1 (h _ hmem).2

/-- Witness for the amended C2 at the concrete one-sample buffer `[0]`. -/
theorem pcm_roundtrip_C2_amended_witness :
    (∀ x ∈ [(0 : ℚ)], -1 ≤ x ∧ x ≤ 1) ∧
    ∃ ys, decodePCM16 (encodePCM16 [(0 : ℚ)]) = some ys ∧
      ys.length = [(0 : ℚ)].length ∧
      ∀ (i : ℕ) (hi : i < ys.length) (hj : i < [(0 : ℚ)].length),
        |ys.get ⟨i, hi⟩ - [(0 : ℚ)].get ⟨i, hj⟩| < 2 / 32768 := by
  have hmem : ∀ x ∈ [(0 : ℚ)], -1 ≤ x ∧ x ≤ 1 := by
    intro x hx
    rw [List.mem_singleton] at hx
    subst hx
    norm_num
  exact ⟨hmem, pcm_roundtrip_C2_amended [(0 : ℚ)] hmem⟩

/-! ## Claim C3: session teardown -/

/-- C3 fails as stated: the effect cleanup releases the audio contexts
but never closes the transport session, so a session whose transport is
open keeps it open through teardown. -/
theorem teardown_C3_counterexample :
    initSession.transportOpen = true ∧
      (cleanup initSession).transportOpen = true :=
  ⟨rfl, rfl⟩

/-- Every source registered at cleanup time gets stopped. -/
theorem stopActive_stops (sc : SchedState) :
    ∀ p ∈ (stopActive sc).playbacks, p.id ∈ sc.active → p.stopped = true := by
  intro p hp hid
  unfold stopActive at hp
  rw [List.mem_map] at hp
  obtain ⟨q, hq, rfl⟩ := hp
  unfold stopSource at hid ⊢
  by_cases hmem : q.id ∈ sc.active
  · rw [if_pos hmem]
  · rw [if_neg hmem] at hid ⊢
    exact absurd hid hmem

/-- C3 amended: teardown clears `mounted`, closes the capture and output
contexts, stops every registered source, leaves the status untouched, is
idempotent (a second close is a no-op), and silences every transport
message and lifecycle callback — but it does not close the transport
session, which stays in whatever state it was. -/
theorem teardown_C3_amended (s : Session) :
    (cleanup s).mounted = false ∧
    (cleanup s).inputOpen = false ∧
    (cleanup s).outputOpen = false ∧
    (cleanup s).status = s.status ∧
    (cleanup s).transportOpen = s.transportOpen ∧
    cleanup (cleanup s) = cleanup s ∧
    (∀ p ∈ (cleanup s).sched.playbacks, p.id ∈ s.sched.active →
        p.stopped = true) ∧
    onopen (cleanup s) = cleanup s ∧
    onclose (cleanup s) = cleanup s ∧
    onerror (cleanup s) = cleanup s ∧
    ∀ d t, onmessage d t (cleanup s) = cleanup s := by
  refine ⟨rfl, rfl, rfl, rfl, rfl, cleanup_idem s, stopActive_stops s.sched,
    ?_, ?_, ?_, ?_⟩
  · simp [onopen, cleanup]
  · simp [onclose, cleanup]
  · simp [onerror, cleanup]
  · intro d t
    simp [onmessage, cleanup]

/-- A session in flight with one registered playback and an advanced
cursor, used to exercise teardown concretely. -/
def sessionWithActive : Session :=
  { status := .connected, mounted := true, inputOpen := true,
    outputOpen := true, transportOpen := true, sent := [],
    sched := { cursor := 5, nextId := 1, active := [0],
               playbacks := [⟨0, 4, 1, false⟩] } }

/-- Witness for the amended C3 at a concrete session with one registered
playback: after cleanup the playback is stopped and a further message
callback is inert. -/
theorem teardown_C3_witness :
    (⟨0, 4, 1, true⟩ : Playback) ∈ (cleanup sessionWithActive).sched.playbacks ∧
    (0 : ℕ) ∈ sessionWithActive.sched.active ∧
    (⟨0, 4, 1, true⟩ : Playback).stopped = true ∧
    onmessage none 0 (cleanup sessionWithActive) = cleanup sessionWithActive :=
  ⟨List.mem_singleton.mpr rfl, List.mem_singleton.mpr rfl,
    (teardown_C3_amended sessionWithActive).2.2.2.2.2.2.1 _
      (List.mem_singleton.mpr rfl) (List.mem_singleton.mpr rfl),
    (teardown_C3_amended sessionWithActive).2.2.2.2.2.2.2.2.2.2 none 0⟩

/-! ## Claim C4: liveness guards after teardown -/

/-- C4 fails as stated: the capture callback `onaudioprocess` contains no
liveness check, so when it fires after teardown it still encodes the
block and performs a transport send. -/
theorem capture_guard_C4_counterexample :
    (cleanup initSession).mounted = false ∧
    (onaudioprocess [0] (cleanup initSession)).sent
      ≠ (cleanup initSession).sent := by
  refine ⟨rfl, ?_⟩
  simp [onaudioprocess, cleanup, initSession, stopActive, initialSched]

/-- C4 amended: after teardown the transport message callback is inert
(it is guarded by the `mounted` liveness flag), but the capture callback
is not guarded and still sends the encoded block to the transport; the
code relies on the closed capture context to stop it from firing. -/
theorem capture_guard_C4_amended (s : Session) (h : s.mounted = false) :
    (∀ d t, onmessage d t s = s) ∧
    ∀ samples, (onaudioprocess samples s).sent
      = s.sent ++ [encodePCM16 samples] := by
  refine ⟨?_, fun samples => rfl⟩
  intro d t
  simp [onmessage, h]

/-- Witness for the amended C4 at the torn-down initial session. -/
theorem capture_guard_C4_witness :
    (cleanup initSession).mounted = false ∧
    onmessage none 0 (cleanup initSession) = cleanup initSession ∧
    (onaudioprocess [] (cleanup initSession)).sent
      = (cleanup initSession).sent ++ [encodePCM16 []] :=
  ⟨rfl, (capture_guard_C4_amended (cleanup initSession) rfl).1 none 0,
    (capture_guard_C4_amended (cleanup initSession) rfl).2 []⟩

/-! ## Claim C8: scheduler teardown -/

/-- C8 fails as stated: cleanup stops the registered sources but takes no
clock input, leaves `nextStartTimeRef` untouched (5 here, not the current
clock time), and does not clear the registered set. -/
theorem sched_teardown_C8_counterexample :
    (cleanup sessionWithActive).sched.cursor = 5 ∧
    (cleanup sessionWithActive).sched.active = [0] :=
  ⟨rfl, rfl⟩

/-- C8 amended: scheduler teardown stops every playback registered in the
active set, but the set itself is unchanged (a handle leaves it only via
its own `onended` callback) and the NextStartCursor keeps its previous
value — it is not reset to the output clock's current time. -/
theorem sched_teardown_C8_amended (s : Session) :
    (∀ p ∈ (cleanup s).sched.playbacks, p.id ∈ s.sched.active →
        p.stopped = true) ∧
    (cleanup s).sched.active = s.sched.active ∧
    (cleanup s).sched.cursor = s.sched.cursor ∧
    ∀ i, (onendedSource i s).sched.active = s.sched.active.erase i :=
  ⟨stopActive_stops s.sched, rfl, rfl, fun _ => rfl⟩

/-- Witness for the amended C8 at the concrete in-flight session. -/
theorem sched_teardown_C8_witness :
    (⟨0, 4, 1, true⟩ : Playback) ∈ (cleanup sessionWithActive).sched.playbacks ∧
    (0 : ℕ) ∈ sessionWithActive.sched.active ∧
    (⟨0, 4, 1, true⟩ : Playback).stopped = true ∧
    (cleanup sessionWithActive).sched.cursor
      = sessionWithActive.sched.cursor :=
  ⟨List.mem_singleton.mpr rfl, List.mem_singleton.mpr rfl,
    (sched_teardown_C8_amended sessionWithActive).1 _
      (List.mem_singleton.mpr rfl) (List.mem_singleton.mpr rfl),
    (sched_teardown_C8_amended sessionWithActive).2.2.1⟩

/-! ## Claim C9: terminal states -/

/-- C9 fails as stated: the lifecycle callbacks set the status
unconditionally while mounted, so `onclose` arriving after `onerror`
(the usual order for a failed socket) moves the state out of `Error`
into `Closed`. -/
theorem terminal_states_C9_counterexample :
    (onerror initSession).status = Status.error ∧
    (onclose (onerror initSession)).status = Status.closed ∧
    Status.closed ≠ Status.error :=
  ⟨rfl, rfl, by decide⟩

/-- C9 amended: while the session is mounted each lifecycle callback sets
the status unconditionally (so `Error` and `Closed` are not terminal
against further callbacks); once the session is torn down (unmounted) no
event sequence changes the status ever again, and a new session requires
a fresh component instance. -/
theorem terminal_states_C9_amended (s : Session) (evs : List Ev) :
    (s.mounted = true →
      (onopen s).status = Status.connected ∧
      (onclose s).status = Status.closed ∧
      (onerror s).status = Status.error) ∧
    (s.mounted = false → (runEvents evs s).status = s.status) := by
  constructor
  · intro h
    refine ⟨?_, ?_, ?_⟩ <;> simp [onopen, onclose, onerror, h]
  · intro h
    exact (runEvents_of_unmounted evs s h).1

/-- Witness for the amended C9: a mounted close sets `Closed`; after
teardown a further close event leaves the status unchanged. -/
theorem terminal_states_C9_witness :
    initSession.mounted = true ∧
    (onclose initSession).status = Status.closed ∧
    (cleanup initSession).mounted = false ∧
    (runEvents [Ev.closeEv] (cleanup initSession)).status
      = (cleanup initSession).status :=
  ⟨rfl, ((terminal_states_C9_amended initSession []).1 rfl).2.1, rfl,
    (terminal_states_C9_amended (cleanup initSession) [Ev.closeEv]).2 rfl⟩

/-! ## Claim C10: system instruction context -/

/-- C10: an absent or empty context is replaced by the fixed default text
in the system instruction, and any non-empty context string is embedded
verbatim between the fixed template prefix and suffix. -/
theorem instruction_context_C10 :
    buildInstruction none
      = instructionPre ++ defaultContextText ++ instructionPost ∧
    buildInstruction (some "")
      = instructionPre ++ defaultContextText ++ instructionPost ∧
    ∀ c : String, c ≠ "" →
      buildInstruction (some c) = instructionPre ++ c ++ instructionPost := by
  refine ⟨rfl, ?_, ?_⟩
  · simp [buildInstruction, contextOrDefault]
  · intro c hc
    simp [buildInstruction, contextOrDefault, hc]

/-- Witness for C10 at the concrete context `"Note X"`. -/
theorem instruction_context_C10_witness :
    "Note X" ≠ "" ∧
    buildInstruction (some "Note X")
      = instructionPre ++ "Note X" ++ instructionPost :=
  ⟨by decide, instruction_context_C10.2.2 "Note X" (by decide)⟩

end Void
